import Mathlib

/-!
Shallow embedding of the hitokoto-cli local bundle subsystem
(src/bundle_echo.py, src/bundle_manage.py, src/bundle_get.py,
src/hitokoto_api.py) and proofs about the frozen claims.

Modelling conventions:
* JSON quote records are modelled by the `Sentence` structure; a missing
  JSON key is `none`.  Elements of category files are assumed to be JSON
  objects (the Python code skips or crashes on other shapes; no claim
  concerns them).
* The on-disk bundle is a `BundleState`: a map from file names (such as
  "a.json") to decoded category-file contents, the decoded
  package-info.json, and the index.jsonl contents.
* Network, `random.choice`, `random.sample` are oracles passed as
  function arguments; hypotheses state exactly what the Python library
  guarantees about them.
* Timestamps (`last_update`, `last_check`) and log output are not part of
  any claim and are omitted from the download-info record.
-/

namespace Hitokoto

/-- A quote record as decoded from a category file (or from the remote
API).  Each field models the JSON key of the same name; `none` means the
key is absent, `some` wraps the (null-allowing) value where relevant.
The Python key `from` is modelled as `from_`, `type` keeps its name. -/
structure Sentence where
  id : Option Int
  uuid : Option String
  type : Option String
  hitokoto : String
  from_who : Option String
  from_ : Option String
  length : Option Nat
  deriving DecidableEq, Repr

/-- One line of index.jsonl, as written by generate_index_file
(bundle_manage.py lines 153-159): fields id, uuid, type, file, length. -/
structure IndexEntry where
  id : Option Int
  uuid : Option String
  type : String
  file : String
  length : Nat
  deriving DecidableEq, Repr

/-- Decoded contents of one category file on disk: a JSON array of
records, valid JSON that is not an array, or a file that fails to
decode. -/
inductive CatFile where
  | sentences (l : List Sentence)
  | malformed
  | unreadable
  deriving DecidableEq

/-- Contents of index.jsonl on disk: a decodable jsonl sequence of
entries, or a file whose decoding raises (load_index_file's except
branch, bundle_echo.py lines 65-74). -/
inductive IndexFileData where
  | entries (l : List IndexEntry)
  | corrupt
  deriving DecidableEq

/-- One element of the `files` list of package-info.json
(`{name, amount, source}`); `amount` is `none` when the key is absent
(check_bundle_integrity reads it with `.get('amount', 0)`). -/
structure FileInfo where
  name : Option String
  amount : Option Nat
  source : Option String
  deriving DecidableEq, Repr

/-- The decoded package-info.json fields used by the embedded code. -/
structure PackageInfo where
  files : List FileInfo
  deriving DecidableEq, Repr

/-- The on-disk bundle directory: `files` maps a file name such as
"a.json" to its decoded contents (`none` when the file does not exist),
`packageInfo` is the decoded package-info.json (`none`: absent or
unreadable, both of which make load_package_info return None), and
`index` is index.jsonl (`none` when absent). -/
structure BundleState where
  files : String → Option CatFile
  packageInfo : Option PackageInfo
  index : Option IndexFileData

/-- The fixed category list `['a', ..., 'l']` (bundle_manage.py line 119,
bundle_get.py line 205, bundle_echo.py line 302). -/
def sentence_types : List String :=
  ["a", "b", "c", "d", "e", "f", "g", "h", "i", "j", "k", "l"]

/-! ## bundle_manage.py: generate_index_file -/

/-- Python truthiness of the `uuid` value stored in an index entry:
`None` and the empty string are falsy (bundle_manage.py line 162). -/
def uuidTruthy : Option String → Bool
  | none => false
  | some s => !s.isEmpty

/-- The index entry built for one record of category `t`
(bundle_manage.py lines 153-167): fields are taken from the record with
the documented defaults, and the entry is kept only when
`entry['id'] is not None and entry['uuid']`. -/
def mkIndexEntry (t : String) (s : Sentence) : Option IndexEntry :=
  let entry : IndexEntry :=
    { id := s.id
      uuid := s.uuid
      type := s.type.getD t
      file := "bundle/" ++ t ++ ".json"
      length := s.length.getD s.hitokoto.length }
  if entry.id ≠ none ∧ uuidTruthy entry.uuid then some entry else none

/-- Index entries contributed by category `t`: a missing file, a
non-array file and an unreadable file are all skipped
(bundle_manage.py lines 130-142 and 172-175). -/
def categoryEntries (files : String → Option CatFile) (t : String) : List IndexEntry :=
  match files (t ++ ".json") with
  | none => []
  | some .malformed => []
  | some .unreadable => []
  | some (.sentences l) => l.filterMap (mkIndexEntry t)

/-- All index entries collected over the 12 categories in order
(bundle_manage.py lines 126-175). -/
def buildIndexEntries (files : String → Option CatFile) : List IndexEntry :=
  (sentence_types.map (categoryEntries files)).flatten

/-- generate_index_file (bundle_manage.py lines 105-196) as a state
transition: on zero valid entries it returns the no-data error and
writes nothing; otherwise it overwrites index.jsonl wholesale.  The
result triple mirrors the Python `(success, count, error)`. -/
def generate_index_file (st : BundleState) :
    (Bool × Nat × Option String) × BundleState :=
  let es := buildIndexEntries st.files
  if es.isEmpty then
    ((false, 0, some "没有找到有效的语句数据"), st)
  else
    ((true, es.length, none), { st with index := some (.entries es) })

/-- The bundle state after one run of generate_index_file. -/
def runGenerateIndex (st : BundleState) : BundleState :=
  (generate_index_file st).2

/-! ## bundle_manage.py: check_bundle_integrity -/

/-- One integrity finding.  The Python code collects these as formatted
strings in the `issues` list (bundle_manage.py lines 229-258); each
constructor carries the data interpolated into the corresponding
string. -/
inductive Issue where
  | missingFile (name : String)
  | countMismatch (name : String) (expected actual : Nat)
  | readError (name : String)
  | missingIndex
  deriving DecidableEq, Repr

/-- The issues raised for one entry of the metadata's `files` list
(bundle_manage.py lines 221-251): an entry whose `name` is falsy is
skipped; a missing file, a count mismatch (a non-array file counts 0
elements) and an undecodable file each raise one issue. -/
def fileIssue (st : BundleState) (fi : FileInfo) : List Issue :=
  match fi.name with
  | none => []
  | some name =>
    if name = "" then []
    else
      match st.files name with
      | none => [.missingFile name]
      | some .unreadable => [.readError name]
      | some (.sentences l) =>
          let expected := fi.amount.getD 0
          if l.length ≠ expected then [.countMismatch name expected l.length] else []
      | some .malformed =>
          let expected := fi.amount.getD 0
          if 0 ≠ expected then [.countMismatch name expected 0] else []

/-- check_bundle_integrity (bundle_manage.py lines 199-270).  Absent (or
undecodable) package metadata fails immediately with no issue list
(`none`); otherwise every metadata file entry is examined, a missing
index.jsonl adds one more issue, and the check passes iff the collected
issue list is empty.  The Python code returns the issues joined into one
message string; the list itself is the faithful content. -/
def check_bundle_integrity (st : BundleState) : Bool × Option (List Issue) :=
  match st.packageInfo with
  | none => (false, none)
  | some pi =>
    let fileIssues := (pi.files.map (fileIssue st)).flatten
    let issues := fileIssues ++ (if st.index = none then [.missingIndex] else [])
    (issues.isEmpty, some issues)

/-! ## bundle_echo.py: index loading and queries -/

/-- load_index_file (bundle_echo.py lines 53-74): an absent index.jsonl
and a reading/decoding failure both yield the empty list. -/
def load_index_file (st : BundleState) : List IndexEntry :=
  match st.index with
  | none => []
  | some .corrupt => []
  | some (.entries l) => l

/-- get_sentence_by_id (bundle_echo.py lines 77-119).  `sid` is the raw
Python value compared with `item.get('id')`; the CLI passes an int
(`some i` here), and export_sentences_to_file passes an index entry's
stored id.  The first matching index entry names the file
`{type}.json`; a missing, non-array or unreadable file yields None, and
otherwise the first record of that file with the same id is returned. -/
def get_sentence_by_id (sid : Option Int) (st : BundleState) : Option Sentence :=
  match (load_index_file st).find? (fun item => decide (item.id = sid)) with
  | none => none
  | some target =>
    match st.files (target.type ++ ".json") with
    | none => none
    | some .malformed => none
    | some .unreadable => none
    | some (.sentences sentences) =>
        sentences.find? (fun s => decide (s.id = sid))

/-- get_sentence_by_uuid (bundle_echo.py lines 122-164): the same
pattern keyed on the uuid string. -/
def get_sentence_by_uuid (suuid : String) (st : BundleState) : Option Sentence :=
  match (load_index_file st).find? (fun item => decide (item.uuid = some suuid)) with
  | none => none
  | some target =>
    match st.files (target.type ++ ".json") with
    | none => none
    | some .malformed => none
    | some .unreadable => none
    | some (.sentences sentences) =>
        sentences.find? (fun s => decide (s.uuid = some suuid))

/-- The per-entry filter of get_random_sentence (bundle_echo.py lines
181-193): the type filter applies only when `sentence_type` is truthy,
and the inclusive length bounds apply only when given. -/
def randFilter (stype : Option String) (minL maxL : Option Int) (item : IndexEntry) : Bool :=
  (match stype with
   | none => true
   | some s => if s = "" then true else item.type = s) &&
  (match minL with
   | none => true
   | some m => !((item.length : Int) < m)) &&
  (match maxL with
   | none => true
   | some m => !((item.length : Int) > m))

/-- A placeholder entry; `List.getD` below never reaches it because the
selection is made only from a nonempty list. -/
def dfltEntry : IndexEntry := ⟨none, none, "", "", 0⟩

/-- get_random_sentence (bundle_echo.py lines 167-226).  `pick` is the
`random.choice` oracle: the chosen element is the one at position
`pick % filtered.length`, which ranges over exactly the filtered list.
An empty index and an empty filtered list each yield None before any
choice is made; the chosen entry is then resolved through
`{type}.json` like get_sentence_by_id, keyed on the entry's stored id
(Python compares with `==`, under which null equals null). -/
def get_random_sentence (pick : Nat) (stype : Option String) (minL maxL : Option Int)
    (st : BundleState) : Option Sentence :=
  let index_data := load_index_file st
  if index_data.isEmpty then none
  else
    let filtered := index_data.filter (randFilter stype minL maxL)
    if filtered.isEmpty then none
    else
      let selected := filtered.getD (pick % filtered.length) dfltEntry
      match st.files (selected.type ++ ".json") with
      | none => none
      | some .malformed => none
      | some .unreadable => none
      | some (.sentences sentences) =>
          sentences.find? (fun s => decide (s.id = selected.id))

/-- The per-entry filter of get_sentences_by_type (bundle_echo.py lines
243-255): the membership filter applies only when the type list is
truthy (neither None nor empty). -/
def typesFilter (stypes : Option (List String)) (minL maxL : Option Int)
    (item : IndexEntry) : Bool :=
  (match stypes with
   | none => true
   | some ts => if ts.isEmpty then true else ts.contains item.type) &&
  (match minL with
   | none => true
   | some m => !((item.length : Int) < m)) &&
  (match maxL with
   | none => true
   | some m => !((item.length : Int) > m))

/-- get_sentences_by_type (bundle_echo.py lines 229-258): returns the
surviving index entries, unresolved; an empty index yields []. -/
def get_sentences_by_type (stypes : Option (List String)) (minL maxL : Option Int)
    (st : BundleState) : List IndexEntry :=
  let index_data := load_index_file st
  if index_data.isEmpty then []
  else index_data.filter (typesFilter stypes minL maxL)

/-! ## bundle_echo.py: path helpers (posixpath semantics) -/

/-- Python `s.rfind(c) + 1` on the character list of a path: 0 when the
character does not occur, one past its last occurrence otherwise. -/
def rfindP1 (c : Char) (cs : List Char) : Nat :=
  match (cs.reverse.findIdx? (· = c)) with
  | none => 0
  | some j => cs.length - j

/-- os.path.basename: everything after the last slash. -/
def basename (p : String) : String :=
  String.mk (p.toList.drop (rfindP1 '/' p.toList))

/-- os.path.dirname: everything up to and including the last slash,
with trailing slashes stripped unless the head is all slashes. -/
def dirname (p : String) : String :=
  let cs := p.toList
  let head := cs.take (rfindP1 '/' cs)
  if head ≠ [] ∧ ¬ head.all (· = '/') then
    String.mk ((head.reverse.dropWhile (· = '/')).reverse)
  else
    String.mk head

/-- os.path.splitext: splits at the last dot of the final path
component, unless every character of that component before the dot is
itself a dot (so ".txt" has no extension). -/
def splitext (p : String) : String × String :=
  let cs := p.toList
  let s := rfindP1 '/' cs
  let d := rfindP1 '.' cs
  if s < d then
    if ((cs.drop s).take (d - 1 - s)).any (· ≠ '.') then
      (String.mk (cs.take (d - 1)), String.mk (cs.drop (d - 1)))
    else (p, "")
  else (p, "")

/-- Whether the second character list starts with the first
(kernel-computable replacement for the Substring-based core
functions). -/
def charsStartWith : List Char → List Char → Bool
  | [], _ => true
  | _ :: _, [] => false
  | p :: ps, c :: cs => p = c && charsStartWith ps cs

/-- Python `s.startswith(pat)`. -/
def pyStartsWith (s pat : String) : Bool :=
  charsStartWith pat.toList s.toList

/-- Python `s.endswith(pat)`. -/
def pyEndsWith (s pat : String) : Bool :=
  charsStartWith pat.toList.reverse s.toList.reverse

/-- os.path.join for the two-argument uses in bundle_echo.py: an
absolute second component wins; otherwise a single separator is
inserted unless the first component is empty or already ends in one. -/
def joinPath (a b : String) : String :=
  if pyStartsWith b "/" then b
  else if a = "" then b
  else if pyEndsWith a "/" then a ++ b
  else a ++ "/" ++ b

/-- The candidate path tried at counter value `k` by
generate_unique_filename (bundle_echo.py lines 267-272): the plain
filename at 0, then `name(k)ext`. -/
def uniqueCandidate (base filename : String) (k : Nat) : String :=
  if k = 0 then joinPath base filename
  else
    let ne := splitext filename
    joinPath base (ne.1 ++ "(" ++ toString k ++ ")" ++ ne.2)

/-- The `while True` search of generate_unique_filename
(bundle_echo.py lines 261-279) with explicit fuel: `paths` is the set
of existing paths (`os.path.exists`), and `none` models the search not
terminating within `fuel` steps. -/
def generate_unique_filename (paths : List String) (base filename : String) :
    Nat → Nat → Option String
  | 0, _ => none
  | fuel + 1, counter =>
    let full := uniqueCandidate base filename counter
    if paths.contains full then
      generate_unique_filename paths base filename fuel (counter + 1)
    else some full

/-! ## bundle_echo.py: export_sentences_to_file -/

/-- The filesystem area that export_sentences_to_file writes into,
kept as explicit lists so outcomes stay decidable: the existing file
paths and the existing directories. -/
structure FS where
  paths : List String
  dirs : List String
  deriving DecidableEq, Repr

/-- The outcome of export_sentences_to_file.  The Python function
returns a bare bool and prints messages; the constructors record which
exit was taken: no package info, no matching sentences, no resolvable
content, filename search out of fuel (models the unbounded `while
True`), or a successful write of `sentences` to `file` leaving the
filesystem in `fs`. -/
inductive ExportResult where
  | noBundle
  | noMatch
  | noContent
  | fuelOut
  | wrote (file : String) (sentences : List Sentence) (fs : FS)
  deriving DecidableEq, Repr

/-- Python truthiness of the `sentence_types` argument: None and the
empty list are falsy (bundle_echo.py line 296). -/
def typesTruthy : Option (List String) → Bool
  | none => false
  | some ts => !ts.isEmpty

/-- The candidate index entries of an export (bundle_echo.py lines
296-302): the given types when truthy, else all 12 categories. -/
def availableItems (stypes : Option (List String)) (minL maxL : Option Int)
    (st : BundleState) : List IndexEntry :=
  if typesTruthy stypes then get_sentences_by_type stypes minL maxL st
  else get_sentences_by_type (some sentence_types) minL maxL st

/-- The resolution loop of export_sentences_to_file (bundle_echo.py
lines 319-333): entries whose id was already used are skipped, each
remaining entry is resolved through get_sentence_by_id, and an entry
that fails to resolve is skipped without marking its id used. -/
def resolveSelected (st : BundleState) : List IndexEntry → List (Option Int) → List Sentence
  | [], _ => []
  | item :: rest, used =>
    if used.contains item.id then resolveSelected st rest used
    else
      match get_sentence_by_id item.id st with
      | some s => s :: resolveSelected st rest (item.id :: used)
      | none => resolveSelected st rest used

/-- The output directory and filename of an export (bundle_echo.py
lines 341-355): a path that exists as a file or ends in .txt/.json is
a file path (its parent defaulting to "."), anything else is a
directory with the default filename. -/
def exportTarget (fs : FS) (output_path : String) : String × String :=
  if fs.paths.contains output_path
      || pyEndsWith output_path ".txt" || pyEndsWith output_path ".json" then
    let d := dirname output_path
    ((if d = "" then "." else d), basename output_path)
  else
    (output_path, "hitokoto.txt")

/-- export_sentences_to_file (bundle_echo.py lines 282-394).  `sample`
is the `random.sample` oracle; the write itself is modelled as always
succeeding, adding the output file to `fs.paths` and — when the
destination directory is neither empty nor "." — the directory to
`fs.dirs` (`os.makedirs` before the write). -/
def export_sentences_to_file (st : BundleState) (fs : FS)
    (sample : List IndexEntry → Nat → List IndexEntry) (fuel : Nat)
    (count : Nat) (output_path : String) (stypes : Option (List String))
    (minL maxL : Option Int) : ExportResult :=
  match st.packageInfo with
  | none => .noBundle
  | some _ =>
    let available := availableItems stypes minL maxL st
    if available.isEmpty then .noMatch
    else
      let c := min count available.length
      let selected := sample available c
      let sentences := resolveSelected st selected []
      if sentences.isEmpty then .noContent
      else
        let target := exportTarget fs output_path
        match generate_unique_filename (fs.paths ++ fs.dirs) target.1 target.2 fuel 0 with
        | none => .fuelOut
        | some output_file =>
          let dirs' := if target.1 ≠ "" ∧ target.1 ≠ "." then
              target.1 :: fs.dirs else fs.dirs
          .wrote output_file sentences ⟨output_file :: fs.paths, dirs'⟩

/-! ## formatting: bundle_echo.py and hitokoto_api.py -/

/-- Python `str.strip()`: drop leading and trailing whitespace.
(String.trim is extensionally the same but is defined by well-founded
recursion, which blocks kernel evaluation, so the character-list form
is used.) -/
def pyStrip (s : String) : String :=
  String.mk (((s.toList.dropWhile Char.isWhitespace).reverse.dropWhile
    Char.isWhitespace).reverse)

/-- format_sentence_output (bundle_echo.py lines 397-432), plain-text
mode (the claims concern only `output_format="text"`; JSON mode
serialises the record and is out of scope).  An author value survives
when it is truthy, not the literal "null", and not whitespace-only;
likewise the source, which is wrapped in CJK corner brackets.  The
suffix is ` ——` followed by the first surviving part and then the
second, with no further separator. -/
def format_sentence_output (sentence : Option Sentence) (include_source : Bool) :
    Option String :=
  match sentence with
  | none => none
  | some s =>
    let hitokoto := s.hitokoto
    if include_source then
      let whoPart : List String :=
        match s.from_who with
        | none => []
        | some w => if !w.isEmpty && w ≠ "null" && !(pyStrip w).isEmpty then [w] else []
      let srcPart : List String :=
        match s.from_ with
        | none => []
        | some f => if !f.isEmpty && f ≠ "null" && !(pyStrip f).isEmpty
            then ["「" ++ f ++ "」"] else []
      match whoPart ++ srcPart with
      | [] => some hitokoto
      | [p] => some (hitokoto ++ " ——" ++ p)
      | p :: q :: _ => some (hitokoto ++ " ——" ++ p ++ q)
    else some hitokoto

/-- format_hitokoto_output (hitokoto_api.py lines 77-127), plain-text
mode.  Unlike the bundle-side formatter it keeps whitespace-only
values (no `.strip()` test) and joins with ` —— ` — an em-dash pair
followed by a space. -/
def format_hitokoto_output (data : Option Sentence) (include_source : Bool) : String :=
  match data with
  | none => "获取一言失败"
  | some s =>
    let hitokoto_text := s.hitokoto
    if include_source then
      let whoPart : List String :=
        match s.from_who with
        | none => []
        | some w => if !w.isEmpty && w ≠ "null" then [w] else []
      let srcPart : List String :=
        match s.from_ with
        | none => []
        | some f => if !f.isEmpty && f ≠ "null" then ["「" ++ f ++ "」"] else []
      match whoPart ++ srcPart with
      | [] => hitokoto_text
      | [p] => hitokoto_text ++ " —— " ++ p
      | p :: q :: _ => hitokoto_text ++ " —— " ++ p ++ q
    else hitokoto_text

/-! ## bundle_get.py: download with failover -/

/-- Outcome of one call to download_sentence_file (bundle_get.py lines
73-123), which is pure I/O and is therefore modelled as an oracle
value: success carries the element count of the downloaded array,
failure carries the formatted error message. -/
inductive DLResult where
  | ok (count : Nat)
  | fail (msg : String)
  deriving DecidableEq, Repr

/-- Python `str` applied to an optional error message (`str(None)` is
"None"). -/
def optStr : Option String → String
  | none => "None"
  | some s => s

/-- Whether the pattern occurs somewhere in the character list. -/
def charsContain (pat : List Char) : List Char → Bool
  | [] => pat.isEmpty
  | c :: cs => charsStartWith pat (c :: cs) || charsContain pat cs

/-- Python `pat in s` substring membership. -/
def strContains (s pat : String) : Bool :=
  charsContain pat.toList s.toList

/-- The 404 test of bundle_get.py (lines 159 and 178):
`"404" in str(error) or "Not Found" in str(error)`. -/
def is404 (error : Option String) : Bool :=
  strContains (optStr error) "404" || strContains (optStr error) "Not Found"

/-- The mirror names in the insertion order of the get_bundle_sources
dict (bundle_get.py lines 18-22). -/
def sourceNames : List String := ["of", "gh", "jsd"]

/-- The base URL of each mirror (bundle_get.py lines 18-22). -/
def sourceUrl (s : String) : String :=
  if s = "of" then "https://sentences-bundle.hitokoto.cn/"
  else if s = "gh" then "https://raw.githubusercontent.com/hitokoto-osc/sentences-bundle/master/"
  else if s = "jsd" then "https://cdn.jsdelivr.net/gh/hitokoto-osc/sentences-bundle@latest/"
  else ""

/-- The retry order built by download_single_file_with_retry
(bundle_get.py lines 143-147): the other mirrors in registry order,
then the primary once more. -/
def retryOrder (primary : String) : List String :=
  (sourceNames.filter (· ≠ primary)) ++ [primary]

/-- The retry loop of download_single_file_with_retry (bundle_get.py
lines 167-183): attempt `k` of the enclosing call targets the next
source in `order`; the first success returns its count and source, and
otherwise the last error is carried out of the loop.  The second
component of the result is the list of sources actually attempted. -/
def retryLoop (fetch : Nat → DLResult) :
    Nat → List String → Option String → ((Option (Nat × String) × Option String) × List String)
  | _, [], lastErr => ((none, lastErr), [])
  | k, s :: rest, _lastErr =>
    match fetch k with
    | .ok n => ((some (n, s), none), [s])
    | .fail e =>
      let r := retryLoop fetch (k + 1) rest (some e)
      (r.1, s :: r.2)

/-- download_single_file_with_retry (bundle_get.py lines 126-185) for
one category.  `fetch k` is the outcome of the k-th download attempt
of this call (attempt 0 is the primary mirror, attempt k+1 the k-th
element of the retry order).  The result quadruple mirrors the Python
`(success, count, used_source, error)`; the second component is the
trace of sources attempted, in order. -/
def download_single_file_with_retry (fetch : Nat → DLResult) (primary_source : String) :
    (Bool × Nat × String × Option String) × List String :=
  match fetch 0 with
  | .ok n => ((true, n, primary_source, none), [primary_source])
  | .fail e =>
    if is404 (some e) then
      ((false, 0, primary_source, some e), [primary_source])
    else
      match retryLoop fetch 1 (retryOrder primary_source) (some e) with
      | ((some (n, s), _), tr) => ((true, n, s, none), primary_source :: tr)
      | ((none, lastErr), tr) =>
        ((false, 0, primary_source,
          some ("所有来源都失败，最后错误: " ++ optStr lastErr)), primary_source :: tr)

/-- The per-attempt oracle for one category under a stable network:
`net source category` is what downloading that category from that
mirror yields.  Attempt 0 targets the primary, attempt k+1 the k-th
entry of the retry order, matching download_single_file_with_retry. -/
def attemptFetch (net : String → String → DLResult) (primary cat : String) :
    Nat → DLResult
  | 0 => net primary cat
  | k + 1 => net ((retryOrder primary).getD k "") cat

/-- One element of the download-info `files` list (bundle_get.py lines
222-226): `{name, amount, source}`. -/
structure FileEntry where
  name : String
  amount : Nat
  source : String
  deriving DecidableEq, Repr

/-- The download-info dictionary built by download_bundle_from_source
(bundle_get.py lines 249-259), minus the two timestamps. -/
structure DownloadInfo where
  source : String
  source_url : String
  files_amount : Nat
  files : List FileEntry
  amount : Nat
  source_usage : List (String × Nat)
  failed_types : List String
  deriving DecidableEq, Repr

/-- The source-usage bump of bundle_get.py lines 231-233, preserving
dict insertion order. -/
def bumpUsage (u : List (String × Nat)) (s : String) : List (String × Nat) :=
  if u.any (fun p => p.1 = s) then
    u.map (fun p => if p.1 = s then (p.1, p.2 + 1) else p)
  else u ++ [(s, 1)]

/-- Python `url.rstrip('/')`. -/
def rstripSlash (s : String) : String :=
  String.mk ((s.toList.reverse.dropWhile (· = '/')).reverse)

/-- download_bundle_from_source (bundle_get.py lines 188-289): runs the
per-category failover for all 12 categories, aggregates the file list,
totals, per-source usage and failed categories, and returns
`(success, info, error)` — total failure only when zero files were
obtained, the partial-success warning when fewer than 12 were, and no
message on a complete download.  Writing the files to disk is part of
the fetch oracle; this function returns what the caller sees. -/
def download_bundle_from_source (net : String → String → DLResult)
    (source_name source_url : String) : Bool × Option DownloadInfo × Option String :=
  let step := fun (acc : List FileEntry × Nat × List String × List (String × Nat))
      (cat : String) =>
    let r := (download_single_file_with_retry (attemptFetch net source_name cat)
      source_name).1
    if r.1 then
      (acc.1 ++ [⟨cat ++ ".json", r.2.1, r.2.2.1⟩], acc.2.1 + r.2.1,
       acc.2.2.1, bumpUsage acc.2.2.2 r.2.2.1)
    else
      (acc.1, acc.2.1, acc.2.2.1 ++ [cat], acc.2.2.2)
  let agg := sentence_types.foldl step ([], 0, [], [])
  let downloaded := agg.1
  if downloaded.isEmpty then (false, none, some "没有成功下载任何文件")
  else
    let info : DownloadInfo :=
      { source := source_name
        source_url := rstripSlash source_url
        files_amount := downloaded.length
        files := downloaded
        amount := agg.2.1
        source_usage := agg.2.2.2
        failed_types := agg.2.2.1 }
    if downloaded.length = sentence_types.length then (true, some info, none)
    else
      (true, some info,
       some ("部分成功: 预期 " ++ toString sentence_types.length ++
             " 个文件，实际获取 " ++ toString downloaded.length ++ " 个"))

/-- The mirror try order of get_bundle (bundle_get.py lines 311-321). -/
def tryOrder (source : String) : List String :=
  if source = "gh" then ["gh", "jsd", "of"]
  else
    [source, "gh"] ++ (if source ≠ "jsd" then ["jsd"] else []) ++
      (if source ≠ "of" then ["of"] else [])

/-- The source loop of get_bundle (bundle_get.py lines 326-352): the
first source whose download reports success wins, and the function
then returns `(True, download_info, None)` — the download's own third
component is not propagated.  When every source fails, the last error
is wrapped in the final message. -/
def getBundleLoop (net : String → String → DLResult) :
    List String → Option String → Bool × Option DownloadInfo × Option String
  | [], lastErr => (false, none, some ("所有来源都获取失败，最后错误: " ++ optStr lastErr))
  | s :: rest, _lastErr =>
    match download_bundle_from_source net s (sourceUrl s) with
    | (true, info, _msg) => (true, info, none)
    | (false, _, err) => getBundleLoop net rest err

/-- get_bundle (bundle_get.py lines 292-352).  An unknown source name
fails immediately; otherwise the try order is walked by
`getBundleLoop`.  The call to update_package_info_and_index on success
mutates the bundle directory and is outside this claim's scope. -/
def get_bundle (net : String → String → DLResult) (source : String) :
    Bool × Option DownloadInfo × Option String :=
  if ¬ sourceNames.contains source then
    (false, none, some ("不支持的来源: " ++ source))
  else getBundleLoop net (tryOrder source) none


/-! ## Concrete states and oracles used by the claim theorems -/

/-- Concrete empty-bundle state for the C10 witness. -/
def stEmptyIndex : BundleState :=
  { files := fun _ => none, packageInfo := none, index := none }

/-- The spec's C4 scenario record: `{id:2, uuid:"u2", hitokoto:"y"}`
with no type, living in b.json. -/
def recC4 : Sentence := ⟨some 2, some "u2", none, "y", none, none, none⟩

/-- Category files holding only the C4 scenario record. -/
def filesC4 : String → Option CatFile :=
  fun n => if n = "b.json" then some (.sentences [recC4]) else none

/-- Bundle state for the C4 witness. -/
def stC4 : BundleState := ⟨filesC4, none, none⟩

/-- Metadata claiming 12 downloaded category files of one record each,
for the C7 witness. -/
def piC7 : PackageInfo :=
  ⟨sentence_types.map (fun t => ⟨some (t ++ ".json"), some 1, some "gh"⟩)⟩

/-- Bundle state for the C7 witness: only a.json is present (one
record) and index.jsonl is absent. -/
def stC7 : BundleState :=
  ⟨fun n => if n = "a.json"
      then some (.sentences [⟨some 1, some "u1", some "a", "x", none, none, none⟩])
      else none,
   some piC7, none⟩

/-- The spec's formatting scenario record
`{hitokoto:"foo", from_who:"null", from:"bar"}`. -/
def fooS : Sentence := ⟨none, none, none, "foo", some "null", some "bar", none⟩

/-- A record with both attribution values present, for the C3
witness. -/
def sC3 : Sentence := ⟨none, none, none, "文", some "张三", some "书", none⟩

/-- A network in which every mirror serves categories a-e and answers
404 for the rest: any download run obtains exactly 5 of the 12
category files. -/
def netC2 : String → String → DLResult := fun _src cat =>
  if ["a", "b", "c", "d", "e"].contains cat then .ok 10
  else .fail "404 Client Error: Not Found for url"

/-- Per-attempt outcomes for the C6 witness: the primary fails with a
non-404 error and the first retry mirror succeeds. -/
def fetchC6 : Nat → DLResult := fun k =>
  if k = 0 then .fail "Connection timed out"
  else if k = 1 then .ok 7 else .fail "Connection timed out"

/-- Two-record bundle for the C5 witness. -/
def sentC5a : Sentence := ⟨some 1, some "u1", some "a", "hi", none, none, some 2⟩

/-- Second record of the C5 witness bundle. -/
def sentC5b : Sentence := ⟨some 2, some "u2", some "a", "yo", none, none, some 2⟩

/-- Bundle state for the C5 witness: two indexed records in a.json. -/
def stC5 : BundleState :=
  ⟨fun n => if n = "a.json" then some (.sentences [sentC5a, sentC5b]) else none,
   some ⟨[]⟩,
   some (.entries [⟨some 1, "u1", "a", "bundle/a.json", 2⟩,
                   ⟨some 2, "u2", "a", "bundle/a.json", 2⟩])⟩

/-- The random.sample oracle used in witnesses: the first n entries. -/
def sampleTake : List IndexEntry → Nat → List IndexEntry := fun l n => l.take n

/-- Single-record bundle for the C8 witness. -/
def stC8 : BundleState :=
  ⟨fun n => if n = "a.json"
      then some (.sentences [⟨some 1, some "u1", some "a", "hello", none, none, none⟩])
      else none,
   some ⟨[]⟩,
   some (.entries [⟨some 1, some "u1", "a", "bundle/a.json", 5⟩])⟩

/-- A record whose `type` ("a") names a different category than the
file it lives in (b.json). -/
def sentC1 : Sentence := ⟨some 1, some "u1", some "a", "x", none, none, none⟩

/-- Bundle whose only category file is b.json holding sentC1. -/
def stC1 : BundleState :=
  ⟨fun n => if n = "b.json" then some (.sentences [sentC1]) else none,
   some ⟨[]⟩, none⟩

/-- The index entry produced for the distinguished record of the C1
round-trip: its type tag equals its category letter. -/
def soleEntry (c : String) (r : Sentence) (i : Int) (u : String) : IndexEntry :=
  ⟨some i, some u, c, "bundle/" ++ c ++ ".json", r.length.getD r.hitokoto.length⟩

/-- The well-typed record for the C1 witness: it lives in a.json and
its type is "a". -/
def sentC1w : Sentence := ⟨some 1, some "u1", some "a", "x", none, none, none⟩

/-- Category files for the C1 witness. -/
def filesC1w : String → Option CatFile :=
  fun n => if n = "a.json" then some (.sentences [sentC1w]) else none

/-! ## Helper lemmas -/

/-- find? returns the designated element when it matches and every
matching member of the list is that element. -/
lemma find_eq_of_unique {α : Type} (p : α → Bool) :
    ∀ (l : List α) (a : α), a ∈ l → p a = true →
      (∀ b ∈ l, p b = true → b = a) → l.find? p = some a := by
  intro l
  induction l with
  | nil => intro a ha; cases ha
  | cons b t ih =>
    intro a ha hpa huniq
    by_cases hb : p b = true
    · have hba : b = a := huniq b (List.mem_cons_self b t) hb
      subst hba
      simp [List.find?, hb]
    · have hab : a ∈ t := by
        rcases List.mem_cons.mp ha with h | h
        · exact absurd (h ▸ hpa) hb
        · exact h
      have : t.find? p = some a :=
        ih a hab hpa (fun c hc hpc => huniq c (List.mem_cons_of_mem b hc) hpc)
      simp [List.find?, hb, this]

/-- Membership in the flattened per-category entry lists. -/
lemma mem_buildIndexEntries {files : String → Option CatFile} {t : String}
    {e : IndexEntry} (ht : t ∈ sentence_types) (he : e ∈ categoryEntries files t) :
    e ∈ buildIndexEntries files := by
  unfold buildIndexEntries
  exact List.mem_flatten.mpr ⟨categoryEntries files t, List.mem_map_of_mem _ ht, he⟩

/-- The length of a filterMap equals the count of elements the function
keeps. -/
lemma length_filterMap_eq_length_filter {α β : Type} (f : α → Option β) :
    ∀ l : List α, (l.filterMap f).length = (l.filter (fun a => (f a).isSome)).length := by
  intro l
  induction l with
  | nil => rfl
  | cons a t ih =>
    cases hfa : f a with
    | none => simp [List.filterMap_cons, List.filter_cons, hfa, ih]
    | some b => simp [List.filterMap_cons, List.filter_cons, hfa, ih]

/-- mkIndexEntry keeps a record exactly when it has a non-null id and a
present, nonempty uuid. -/
lemma mkIndexEntry_isSome_iff (t : String) (r : Sentence) :
    (mkIndexEntry t r).isSome = true ↔
      (r.id ≠ none ∧ r.uuid ≠ none ∧ r.uuid ≠ some "") := by
  unfold mkIndexEntry uuidTruthy
  cases hid : r.id with
  | none => simp [hid]
  | some i =>
    cases huuid : r.uuid with
    | none => simp [hid, huuid]
    | some u =>
      by_cases hu : u = ""
      · subst hu
        simp [hid, huuid]
        exact (String.isEmpty_iff "").mpr rfl
      · have hne : u.isEmpty = false := by
          cases hie : u.isEmpty with
          | false => rfl
          | true => exact absurd ((String.isEmpty_iff u).mp hie) hu
        simp [hid, huuid, hu, hne]

/-! ## Claims -/

/-- C9: index rebuild is idempotent — for every bundle state, running
generate_index_file a second time on unchanged category files leaves
exactly the state (and hence the index contents) that the first run
produced. -/
theorem c9_index_rebuild_idempotent (st : BundleState) :
    runGenerateIndex (runGenerateIndex st) = runGenerateIndex st := by
  unfold runGenerateIndex generate_index_file
  by_cases h : (buildIndexEntries st.files).isEmpty
  · simp [h]
  · simp [h]

/-- C10: when index.jsonl is absent or cannot be decoded,
load_index_file returns the empty list and every index-driven query
returns a not-found result (None or the empty list) rather than
raising. -/
theorem c10_missing_index_queries (st : BundleState)
    (h : st.index = none ∨ st.index = some .corrupt) :
    load_index_file st = [] ∧
    (∀ sid, get_sentence_by_id sid st = none) ∧
    (∀ suuid, get_sentence_by_uuid suuid st = none) ∧
    (∀ pick stype minL maxL, get_random_sentence pick stype minL maxL st = none) ∧
    (∀ stypes minL maxL, get_sentences_by_type stypes minL maxL st = []) := by
  have hl : load_index_file st = [] := by
    rcases h with h | h <;> simp [load_index_file, h]
  refine ⟨hl, ?_, ?_, ?_, ?_⟩
  · intro sid
    unfold get_sentence_by_id
    rw [hl]
    rfl
  · intro suuid
    unfold get_sentence_by_uuid
    rw [hl]
    rfl
  · intro pick stype minL maxL
    unfold get_random_sentence
    rw [hl]
    rfl
  · intro stypes minL maxL
    unfold get_sentences_by_type
    rw [hl]
    rfl

/-- C10 witness: the theorem applied to a bundle with no index file. -/
theorem c10_missing_index_queries_witness :
    get_sentence_by_id (some 1) stEmptyIndex = none ∧
    get_sentence_by_uuid "u1" stEmptyIndex = none ∧
    get_random_sentence 0 (some "a") none none stEmptyIndex = none ∧
    get_sentences_by_type (some ["a"]) none none stEmptyIndex = [] := by
  have h := c10_missing_index_queries stEmptyIndex (Or.inl rfl)
  exact ⟨h.2.1 (some 1), h.2.2.1 "u1", h.2.2.2.1 0 (some "a") none none,
    h.2.2.2.2 (some ["a"]) none none⟩

/-- A nonempty string has a false isEmpty flag. -/
lemma isEmpty_false_of_ne {u : String} (hu : u ≠ "") : u.isEmpty = false := by
  cases hie : u.isEmpty with
  | false => rfl
  | true => exact absurd ((String.isEmpty_iff u).mp hie) hu

/-- The isSome flag of mkIndexEntry, as a decide. -/
lemma isSome_mkIndexEntry_eq (t : String) (r : Sentence) :
    (mkIndexEntry t r).isSome =
      decide (r.id ≠ none ∧ r.uuid ≠ none ∧ r.uuid ≠ some "") := by
  by_cases hP : r.id ≠ none ∧ r.uuid ≠ none ∧ r.uuid ≠ some ""
  · rw [(mkIndexEntry_isSome_iff t r).mpr hP, decide_eq_true hP]
  · have h1 : (mkIndexEntry t r).isSome = false :=
      Bool.eq_false_iff.mpr (fun h => hP ((mkIndexEntry_isSome_iff t r).mp h))
    rw [h1, decide_eq_false hP]

/-- C4: for every set of category files, the index builder produces
exactly one entry per record possessing an id and a (nonempty) uuid,
with type defaulted from the record to the category letter, the
category's relative path, and length taken from the record or derived
from the quote text; records lacking id or uuid are skipped, and the
run fails with the no-data error exactly when zero valid entries were
produced across all 12 categories. -/
theorem c4_index_builder (st : BundleState) (t : String) (l : List Sentence) :
    (t ∈ sentence_types → st.files (t ++ ".json") = some (.sentences l) →
      (∀ r ∈ l, ∀ i u, r.id = some i → r.uuid = some u → u ≠ "" →
        mkIndexEntry t r = some
          { id := some i, uuid := some u, type := r.type.getD t,
            file := "bundle/" ++ t ++ ".json",
            length := r.length.getD r.hitokoto.length }) ∧
      (∀ r ∈ l, (r.id = none ∨ r.uuid = none ∨ r.uuid = some "") →
        mkIndexEntry t r = none) ∧
      (categoryEntries st.files t).length =
        (l.filter (fun r => decide (r.id ≠ none ∧ r.uuid ≠ none ∧ r.uuid ≠ some ""))).length) ∧
    ((generate_index_file st).1 = (false, 0, some "没有找到有效的语句数据") ↔
      buildIndexEntries st.files = []) := by
  constructor
  · intro _ht hf
    refine ⟨?_, ?_, ?_⟩
    · intro r _hr i u hid huuid hu
      simp [mkIndexEntry, uuidTruthy, hid, huuid, isEmpty_false_of_ne hu]
    · intro r _hr habs
      rcases habs with h | h | h
      · simp [mkIndexEntry, h]
      · simp [mkIndexEntry, uuidTruthy, h]
      · simp [mkIndexEntry, uuidTruthy, h]
        intro _
        exact (String.isEmpty_iff "").mpr rfl
    · unfold categoryEntries
      rw [hf]
      rw [length_filterMap_eq_length_filter (mkIndexEntry t) l]
      congr 1
      exact List.filter_congr (fun r _hr => isSome_mkIndexEntry_eq t r)
  · unfold generate_index_file
    by_cases h : (buildIndexEntries st.files).isEmpty
    · simp [h]
      exact List.isEmpty_iff.mp h
    · simp [h]
      exact fun hc => absurd (List.isEmpty_iff.mpr hc) h

/-- C4 witness: the record without a type is indexed with type "b"
derived from its file, derived length 1, and it is the category's only
entry. -/
theorem c4_index_builder_witness :
    mkIndexEntry "b" recC4 = some ⟨some 2, some "u2", "b", "bundle/b.json", 1⟩ ∧
    (categoryEntries stC4.files "b").length = 1 := by
  have h := (c4_index_builder stC4 "b" [recC4]).1 (by decide) (by decide)
  constructor
  · exact (h.1 recC4 (by decide) 2 "u2" rfl rfl (by decide)).trans (by decide)
  · exact h.2.2.trans (by decide)

/-- C7: integrity checking fails immediately without package metadata;
with it, every metadata file entry contributes its missing-file,
count-mismatch or read-error issue, a missing index.jsonl contributes
its own issue, the check succeeds exactly when the collected issue
list is empty, and the whole list — not only the first issue — is
returned. -/
theorem c7_integrity_check (st : BundleState) :
    (st.packageInfo = none → check_bundle_integrity st = (false, none)) ∧
    (∀ pi, st.packageInfo = some pi →
      ∃ issues, check_bundle_integrity st = (issues.isEmpty, some issues) ∧
        ((check_bundle_integrity st).1 = true ↔ issues = []) ∧
        (∀ fi ∈ pi.files, ∀ n, fi.name = some n → n ≠ "" →
          (st.files n = none → Issue.missingFile n ∈ issues) ∧
          (st.files n = some .unreadable → Issue.readError n ∈ issues) ∧
          (∀ l, st.files n = some (.sentences l) → l.length ≠ fi.amount.getD 0 →
            Issue.countMismatch n (fi.amount.getD 0) l.length ∈ issues)) ∧
        (st.index = none → Issue.missingIndex ∈ issues)) := by
  constructor
  · intro h
    unfold check_bundle_integrity
    rw [h]
  · intro pi hpi
    refine ⟨(pi.files.map (fileIssue st)).flatten ++
      (if st.index = none then [.missingIndex] else []), ?_, ?_, ?_, ?_⟩
    · unfold check_bundle_integrity
      rw [hpi]
    · unfold check_bundle_integrity
      rw [hpi]
      simp [List.isEmpty_iff]
    · intro fi hfi n hn hne
      have hmem : ∀ x ∈ fileIssue st fi,
          x ∈ (pi.files.map (fileIssue st)).flatten ++
            (if st.index = none then [.missingIndex] else []) := by
        intro x hx
        exact List.mem_append_left _
          (List.mem_flatten.mpr ⟨fileIssue st fi, List.mem_map_of_mem _ hfi, hx⟩)
      refine ⟨?_, ?_, ?_⟩
      · intro hmiss
        exact hmem _ (by simp [fileIssue, hn, hne, hmiss])
      · intro hunread
        exact hmem _ (by simp [fileIssue, hn, hne, hunread])
      · intro l hl hcount
        exact hmem _ (by simp [fileIssue, hn, hne, hl, hcount])
    · intro hidx
      exact List.mem_append_right _ (by simp [hidx])

/-- C7 witness: with metadata claiming 12 files and only a.json on
disk, the missing b.json and the missing index are both flagged, and
the check fails. -/
theorem c7_integrity_check_witness :
    ∃ issues, check_bundle_integrity stC7 = (issues.isEmpty, some issues) ∧
      Issue.missingFile "b.json" ∈ issues ∧ Issue.missingIndex ∈ issues ∧
      issues.isEmpty = false := by
  obtain ⟨issues, h1, _h2, h3, h4⟩ := (c7_integrity_check stC7).2 piC7 rfl
  have hb : Issue.missingFile "b.json" ∈ issues :=
    (h3 ⟨some "b.json", some 1, some "gh"⟩ (by decide) "b.json" rfl (by decide)).1
      (by decide)
  refine ⟨issues, h1, hb, h4 rfl, ?_⟩
  cases hie : issues.isEmpty with
  | false => rfl
  | true => exact absurd (List.isEmpty_iff.mp hie ▸ hb) (by simp)

/-- C3 counterexample: on the scenario record the Query Engine path
yields "foo ——「bar」" as the claim states, but the API client path
yields "foo —— 「bar」" (a space after the dashes), so the two paths do
not render identically and the API path does not produce the claimed
string. -/
theorem c3_format_counterexample :
    format_sentence_output (some fooS) true = some "foo ——「bar」" ∧
    format_hitokoto_output (some fooS) true = "foo —— 「bar」" ∧
    format_hitokoto_output (some fooS) true ≠ "foo ——「bar」" := by
  refine ⟨by decide, by decide, by decide⟩

/-- The empty string's isEmpty flag, for simp. -/
lemma empty_isEmpty : ("" : String).isEmpty = true := by decide

/-- C3 (amended): with attribution enabled the Query Engine path
renders `{text} ——{from_who}「{from_source}」`, `{text} ——{from_who}`,
`{text} ——「{from_source}」` or the text alone, treating "null" and
blank (empty or whitespace-only) values as absent; the API client path
renders the same four cases but joins with ` —— ` — a space after the
dashes — and treats whitespace-only values as present, so the two
paths are not identical (witnessed on the scenario record). -/
theorem c3_format_amended (s : Sentence) (w f : String) :
    ((s.from_who = some w → w ≠ "" → w ≠ "null" → pyStrip w ≠ "" →
      s.from_ = some f → f ≠ "" → f ≠ "null" → pyStrip f ≠ "" →
      format_sentence_output (some s) true =
        some (s.hitokoto ++ " ——" ++ w ++ "「" ++ f ++ "」")) ∧
     (s.from_who = some w → w ≠ "" → w ≠ "null" → pyStrip w ≠ "" →
      (∀ x, s.from_ = some x → x = "" ∨ x = "null" ∨ pyStrip x = "") →
      format_sentence_output (some s) true = some (s.hitokoto ++ " ——" ++ w)) ∧
     ((∀ x, s.from_who = some x → x = "" ∨ x = "null" ∨ pyStrip x = "") →
      s.from_ = some f → f ≠ "" → f ≠ "null" → pyStrip f ≠ "" →
      format_sentence_output (some s) true =
        some (s.hitokoto ++ " ——" ++ ("「" ++ f ++ "」"))) ∧
     ((∀ x, s.from_who = some x → x = "" ∨ x = "null" ∨ pyStrip x = "") →
      (∀ x, s.from_ = some x → x = "" ∨ x = "null" ∨ pyStrip x = "") →
      format_sentence_output (some s) true = some s.hitokoto)) ∧
    ((s.from_who = some w → w ≠ "" → w ≠ "null" →
      s.from_ = some f → f ≠ "" → f ≠ "null" →
      format_hitokoto_output (some s) true =
        s.hitokoto ++ " —— " ++ w ++ "「" ++ f ++ "」") ∧
     (s.from_who = some w → w ≠ "" → w ≠ "null" →
      (∀ x, s.from_ = some x → x = "" ∨ x = "null") →
      format_hitokoto_output (some s) true = s.hitokoto ++ " —— " ++ w) ∧
     ((∀ x, s.from_who = some x → x = "" ∨ x = "null") →
      s.from_ = some f → f ≠ "" → f ≠ "null" →
      format_hitokoto_output (some s) true =
        s.hitokoto ++ " —— " ++ ("「" ++ f ++ "」")) ∧
     ((∀ x, s.from_who = some x → x = "" ∨ x = "null") →
      (∀ x, s.from_ = some x → x = "" ∨ x = "null") →
      format_hitokoto_output (some s) true = s.hitokoto)) ∧
    some (format_hitokoto_output (some fooS) true) ≠
      format_sentence_output (some fooS) true := by
  refine ⟨⟨?_, ?_, ?_, ?_⟩, ⟨?_, ?_, ?_, ?_⟩, by decide⟩
  · intro hw hw1 hw2 hw3 hf hf1 hf2 hf3
    simp [format_sentence_output, hw, hf, hw2, hf2,
      isEmpty_false_of_ne hw1, isEmpty_false_of_ne hf1,
      isEmpty_false_of_ne hw3, isEmpty_false_of_ne hf3, String.append_assoc]
  · intro hw hw1 hw2 hw3 habs
    simp only [format_sentence_output]
    cases hx : s.from_ with
    | none =>
      simp [hw, hw2, isEmpty_false_of_ne hw1, isEmpty_false_of_ne hw3]
    | some x =>
      rcases habs x hx with h | h | h
      · subst h
        simp [hw, hw2, isEmpty_false_of_ne hw1, isEmpty_false_of_ne hw3, empty_isEmpty]
      · subst h
        simp [hw, hw2, isEmpty_false_of_ne hw1, isEmpty_false_of_ne hw3]
      · simp [hw, hw2, isEmpty_false_of_ne hw1, isEmpty_false_of_ne hw3, h, empty_isEmpty]
  · intro habs hf hf1 hf2 hf3
    simp only [format_sentence_output]
    cases hx : s.from_who with
    | none =>
      simp [hf, hf2, isEmpty_false_of_ne hf1, isEmpty_false_of_ne hf3, String.append_assoc]
    | some x =>
      rcases habs x hx with h | h | h
      · subst h
        simp [hf, hf2, isEmpty_false_of_ne hf1, isEmpty_false_of_ne hf3, empty_isEmpty,
          String.append_assoc]
      · subst h
        simp [hf, hf2, isEmpty_false_of_ne hf1, isEmpty_false_of_ne hf3, String.append_assoc]
      · simp [hf, hf2, isEmpty_false_of_ne hf1, isEmpty_false_of_ne hf3, h, empty_isEmpty,
          String.append_assoc]
  · intro habsw habsf
    simp only [format_sentence_output]
    have hwho : (match s.from_who with
        | none => ([] : List String)
        | some x => if !x.isEmpty && x ≠ "null" && !(pyStrip x).isEmpty
            then [x] else []) = [] := by
      cases hx : s.from_who with
      | none => rfl
      | some x =>
        rcases habsw x hx with h | h | h
        · subst h; simp [empty_isEmpty]
        · subst h; simp
        · simp [h, empty_isEmpty]
    have hsrc : (match s.from_ with
        | none => ([] : List String)
        | some x => if !x.isEmpty && x ≠ "null" && !(pyStrip x).isEmpty
            then ["「" ++ x ++ "」"] else []) = [] := by
      cases hx : s.from_ with
      | none => rfl
      | some x =>
        rcases habsf x hx with h | h | h
        · subst h; simp [empty_isEmpty]
        · subst h; simp
        · simp [h, empty_isEmpty]
    rw [hwho, hsrc]
    simp
  · intro hw hw1 hw2 hf hf1 hf2
    simp [format_hitokoto_output, hw, hf, hw2, hf2,
      isEmpty_false_of_ne hw1, isEmpty_false_of_ne hf1, String.append_assoc]
  · intro hw hw1 hw2 habs
    simp only [format_hitokoto_output]
    cases hx : s.from_ with
    | none =>
      simp [hw, hw2, isEmpty_false_of_ne hw1]
    | some x =>
      rcases habs x hx with h | h
      · subst h
        simp [hw, hw2, isEmpty_false_of_ne hw1, empty_isEmpty]
      · subst h
        simp [hw, hw2, isEmpty_false_of_ne hw1]
  · intro habs hf hf1 hf2
    simp only [format_hitokoto_output]
    cases hx : s.from_who with
    | none =>
      simp [hf, hf2, isEmpty_false_of_ne hf1, String.append_assoc]
    | some x =>
      rcases habs x hx with h | h
      · subst h
        simp [hf, hf2, isEmpty_false_of_ne hf1, empty_isEmpty, String.append_assoc]
      · subst h
        simp [hf, hf2, isEmpty_false_of_ne hf1, String.append_assoc]
  · intro habsw habsf
    simp only [format_hitokoto_output]
    have hwho : (match s.from_who with
        | none => ([] : List String)
        | some x => if !x.isEmpty && x ≠ "null" then [x] else []) = [] := by
      cases hx : s.from_who with
      | none => rfl
      | some x =>
        rcases habsw x hx with h | h
        · subst h; simp [empty_isEmpty]
        · subst h; simp
    have hsrc : (match s.from_ with
        | none => ([] : List String)
        | some x => if !x.isEmpty && x ≠ "null"
            then ["「" ++ x ++ "」"] else []) = [] := by
      cases hx : s.from_ with
      | none => rfl
      | some x =>
        rcases habsf x hx with h | h
        · subst h; simp [empty_isEmpty]
        · subst h; simp
    rw [hwho, hsrc]
    simp

/-- C3 witness: the amended rendering rules applied to a record with
author and source both present — the two paths differ by the space. -/
theorem c3_format_amended_witness :
    format_sentence_output (some sC3) true = some "文 ——张三「书」" ∧
    format_hitokoto_output (some sC3) true = "文 —— 张三「书」" := by
  have h := c3_format_amended sC3 "张三" "书"
  exact ⟨(h.1.1 rfl (by decide) (by decide) (by decide) rfl (by decide) (by decide)
      (by decide)).trans (by decide),
    (h.2.1.1 rfl (by decide) (by decide) rfl (by decide) (by decide)).trans (by decide)⟩

/-- C2: download_bundle_from_source reports a partial download of 5 of
12 categories with the descriptive partial-success message, but
get_bundle returns success with message None and only the info record,
so the caller of get_bundle never receives the partial-success
message (hitokoto_cli.py line 201 tests it and can never fire). -/
theorem c2_partial_message_dropped :
    (download_bundle_from_source netC2 "gh" (sourceUrl "gh")).2.2 =
      some "部分成功: 预期 12 个文件，实际获取 5 个" ∧
    (download_bundle_from_source netC2 "gh" (sourceUrl "gh")).1 = true ∧
    (get_bundle netC2 "gh").1 = true ∧
    (get_bundle netC2 "gh").2.2 = none ∧
    ((get_bundle netC2 "gh").2.1.map DownloadInfo.files_amount) = some 5 ∧
    ((get_bundle netC2 "gh").2.1.map DownloadInfo.failed_types) =
      some ["f", "g", "h", "i", "j", "k", "l"] := by
  refine ⟨by decide, by decide, by decide, by decide, by decide, by decide⟩

/-- Characterisation of retryLoop when the i-th attempt of the loop is
the first success: the loop returns that attempt's count and mirror,
and attempts exactly the first i+1 mirrors of the order. -/
lemma retryLoop_first_success (fetch : Nat → DLResult) :
    ∀ (order : List String) (k i n : Nat), i < order.length →
      (∀ j, j < i → ∃ e, fetch (k + j) = .fail e) → fetch (k + i) = .ok n →
      retryLoop fetch k order none = ((some (n, order.getD i ""), none), order.take (i + 1)) ∧
      ∀ le, retryLoop fetch k order le = retryLoop fetch k order none := by
  intro order
  induction order with
  | nil => intro k i n hi; exact absurd hi (by simp)
  | cons s rest ih =>
    intro k i n hi hfail hok
    cases i with
    | zero =>
      have hk : fetch k = .ok n := by simpa using hok
      constructor
      · simp [retryLoop, hk]
      · intro le
        simp [retryLoop, hk]
    | succ i =>
      obtain ⟨e0, he0⟩ := hfail 0 (Nat.succ_pos i)
      have hk : fetch k = .fail e0 := by simpa using he0
      have hrest := ih (k + 1) i n (by simpa using hi)
        (fun j hj => by
          obtain ⟨e, he⟩ := hfail (j + 1) (Nat.succ_lt_succ hj)
          exact ⟨e, by rw [← he]; ring_nf⟩)
        (by rw [← hok]; ring_nf)
      constructor
      · simp [retryLoop, hk, (hrest.2 (some e0)).trans hrest.1]
      · intro le
        simp [retryLoop, hk]

/-- Characterisation of retryLoop when every attempt fails: the whole
order is attempted and no success is returned. -/
lemma retryLoop_all_fail (fetch : Nat → DLResult) :
    ∀ (order : List String) (k : Nat) (le : Option String),
      (∀ j, j < order.length → ∃ e, fetch (k + j) = .fail e) →
      ∃ le2, retryLoop fetch k order le = ((none, le2), order) := by
  intro order
  induction order with
  | nil => intro k le _; exact ⟨le, rfl⟩
  | cons s rest ih =>
    intro k le hfail
    obtain ⟨e0, he0⟩ := hfail 0 (by simp)
    have hk : fetch k = .fail e0 := by simpa using he0
    obtain ⟨le2, hrest⟩ := ih (k + 1) (some e0)
      (fun j hj => by
        obtain ⟨e, he⟩ := hfail (j + 1) (by simpa using hj)
        exact ⟨e, by rw [← he]; ring_nf⟩)
    exact ⟨le2, by simp [retryLoop, hk, hrest]⟩

/-- C6: per-category failover.  A 404-style failure of the primary
attempt is returned immediately and no other mirror is ever attempted
(the trace is exactly the primary); any other primary failure walks
the retry order — the remaining mirrors in registry order followed by
one final repeat of the primary — where the first success wins (its
count and mirror are returned and no later mirror is attempted), and
only if every attempt fails is the aggregate failure returned. -/
theorem c6_notfound_no_retry (fetch : Nat → DLResult) (primary : String) :
    (∀ n, fetch 0 = .ok n →
      download_single_file_with_retry fetch primary =
        ((true, n, primary, none), [primary])) ∧
    (∀ e, fetch 0 = .fail e → is404 (some e) = true →
      download_single_file_with_retry fetch primary =
        ((false, 0, primary, some e), [primary])) ∧
    (∀ e, fetch 0 = .fail e → is404 (some e) = false →
      (∀ i n, i < (retryOrder primary).length →
        (∀ j, j < i → ∃ e2, fetch (1 + j) = .fail e2) → fetch (1 + i) = .ok n →
        download_single_file_with_retry fetch primary =
          ((true, n, (retryOrder primary).getD i "", none),
           primary :: (retryOrder primary).take (i + 1))) ∧
      ((∀ j, j < (retryOrder primary).length → ∃ e2, fetch (1 + j) = .fail e2) →
        ∃ msg, download_single_file_with_retry fetch primary =
          ((false, 0, primary, some msg), primary :: retryOrder primary))) := by
  refine ⟨?_, ?_, ?_⟩
  · intro n h
    simp [download_single_file_with_retry, h]
  · intro e h h404
    simp [download_single_file_with_retry, h, h404]
  · intro e h h404
    constructor
    · intro i n hi hfail hok
      have hloop := (retryLoop_first_success fetch (retryOrder primary) 1 i n hi hfail hok)
      have := (hloop.2 (some e)).trans hloop.1
      simp [download_single_file_with_retry, h, h404, this]
    · intro hfail
      obtain ⟨le2, hloop⟩ :=
        retryLoop_all_fail fetch (retryOrder primary) 1 (some e) hfail
      exact ⟨"所有来源都失败，最后错误: " ++ optStr le2,
        by simp [download_single_file_with_retry, h, h404, hloop]⟩

/-- C6 witness: with primary "gh" failing non-404 and the first retry
mirror ("of") succeeding, the failover returns of's payload after
attempting exactly gh then of. -/
theorem c6_notfound_no_retry_witness :
    download_single_file_with_retry fetchC6 "gh" =
      ((true, 7, "of", none), ["gh", "of"]) := by
  have h := ((c6_notfound_no_retry fetchC6 "gh").2.2 "Connection timed out" rfl
      (by decide)).1 0 7 (by decide)
      (fun j hj => absurd hj (Nat.not_lt_zero j)) rfl
  exact h.trans (by decide)

/-- Whatever path generate_unique_filename returns does not exist. -/
lemma gen_unique_not_exists (paths : List String) (base fn : String) :
    ∀ (fuel counter : Nat) (p : String),
      generate_unique_filename paths base fn fuel counter = some p →
      paths.contains p = false := by
  intro fuel
  induction fuel with
  | zero => intro counter p h; exact absurd h (by simp [generate_unique_filename])
  | succ fuel ih =>
    intro counter p h
    unfold generate_unique_filename at h
    by_cases hc : paths.contains (uniqueCandidate base fn counter) = true
    · rw [if_pos hc] at h
      exact ih _ _ h
    · rw [if_neg hc] at h
      injection h with h
      rw [← h]
      exact Bool.eq_false_iff.mpr hc

/-- generate_unique_filename returns the candidate with the least
counter that does not exist, when the fuel allows reaching it. -/
lemma gen_unique_least (paths : List String) (base fn : String) :
    ∀ (fuel c n : Nat), n < fuel →
      (∀ m, m < n → paths.contains (uniqueCandidate base fn (c + m)) = true) →
      paths.contains (uniqueCandidate base fn (c + n)) = false →
      generate_unique_filename paths base fn fuel c =
        some (uniqueCandidate base fn (c + n)) := by
  intro fuel
  induction fuel with
  | zero => intro c n hn; exact absurd hn (by omega)
  | succ fuel ih =>
    intro c n hn hall hfree
    cases n with
    | zero =>
      rw [Nat.add_zero] at hfree
      unfold generate_unique_filename
      rw [if_neg (by rw [hfree]; exact Bool.false_ne_true)]
      rw [Nat.add_zero]
    | succ n =>
      have h0 : paths.contains (uniqueCandidate base fn c) = true := by
        have := hall 0 (Nat.succ_pos n)
        rwa [Nat.add_zero] at this
      unfold generate_unique_filename
      rw [if_pos h0]
      have heq : c + 1 + n = c + (n + 1) := by omega
      rw [show c + (n + 1) = c + 1 + n from by omega] at hfree ⊢
      exact ih (c + 1) n (by omega)
        (fun m hm => by
          have := hall (m + 1) (Nat.succ_lt_succ hm)
          rwa [show c + (m + 1) = c + 1 + m from by omega] at this)
        hfree

/-- The default export path "hitokoto.txt" always takes the file
branch and targets the current directory. -/
lemma exportTarget_default (fs : FS) :
    exportTarget fs "hitokoto.txt" = (".", "hitokoto.txt") := by
  unfold exportTarget
  rw [if_pos (show (fs.paths.contains "hitokoto.txt" || pyEndsWith "hitokoto.txt" ".txt"
      || pyEndsWith "hitokoto.txt" ".json") = true by
    rw [show pyEndsWith "hitokoto.txt" ".txt" = true from by decide]
    simp)]
  decide

/-- Introduction form for a successful export: when the bundle has
metadata, the filters leave candidates, at least one entry resolves
and the filename search succeeds, the export writes. -/
lemma export_reaches_write (st : BundleState) (fs : FS)
    (sample : List IndexEntry → Nat → List IndexEntry) (fuel count : Nat)
    (output_path : String) (stypes : Option (List String)) (minL maxL : Option Int)
    (pi : PackageInfo) (out : String)
    (hpi : st.packageInfo = some pi)
    (hav : (availableItems stypes minL maxL st).isEmpty = false)
    (hss : (resolveSelected st (sample (availableItems stypes minL maxL st)
        (min count (availableItems stypes minL maxL st).length)) []).isEmpty = false)
    (hgen : generate_unique_filename (fs.paths ++ fs.dirs) (exportTarget fs output_path).1
        (exportTarget fs output_path).2 fuel 0 = some out) :
    export_sentences_to_file st fs sample fuel count output_path stypes minL maxL =
      .wrote out
        (resolveSelected st (sample (availableItems stypes minL maxL st)
          (min count (availableItems stypes minL maxL st).length)) [])
        ⟨out :: fs.paths,
         if (exportTarget fs output_path).1 ≠ "" ∧ (exportTarget fs output_path).1 ≠ "."
         then (exportTarget fs output_path).1 :: fs.dirs else fs.dirs⟩ := by
  unfold export_sentences_to_file
  rw [hpi]
  simp only [hav, hss, hgen, Bool.false_eq_true, if_false]

/-- Inversion of a successful export: the branch conditions that were
necessarily taken and the exact shape of the result. -/
lemma export_wrote_inv (st : BundleState) (fs : FS)
    (sample : List IndexEntry → Nat → List IndexEntry) (fuel count : Nat)
    (output_path : String) (stypes : Option (List String)) (minL maxL : Option Int)
    (f : String) (ss : List Sentence) (fs2 : FS)
    (h : export_sentences_to_file st fs sample fuel count output_path stypes minL maxL =
      .wrote f ss fs2) :
    (∃ pi, st.packageInfo = some pi) ∧
    (availableItems stypes minL maxL st).isEmpty = false ∧
    ss = resolveSelected st (sample (availableItems stypes minL maxL st)
      (min count (availableItems stypes minL maxL st).length)) [] ∧
    ss.isEmpty = false ∧
    generate_unique_filename (fs.paths ++ fs.dirs) (exportTarget fs output_path).1
      (exportTarget fs output_path).2 fuel 0 = some f ∧
    fs2 = ⟨f :: fs.paths,
      if (exportTarget fs output_path).1 ≠ "" ∧ (exportTarget fs output_path).1 ≠ "."
      then (exportTarget fs output_path).1 :: fs.dirs else fs.dirs⟩ := by
  unfold export_sentences_to_file at h
  cases hpi : st.packageInfo with
  | none => rw [hpi] at h; exact absurd h (by simp)
  | some pi =>
    rw [hpi] at h
    simp only at h
    by_cases hav : (availableItems stypes minL maxL st).isEmpty = true
    · rw [if_pos hav] at h; exact absurd h (by simp)
    · rw [if_neg hav] at h
      by_cases hss : (resolveSelected st (sample (availableItems stypes minL maxL st)
          (min count (availableItems stypes minL maxL st).length)) []).isEmpty = true
      · rw [if_pos hss] at h; exact absurd h (by simp)
      · rw [if_neg hss] at h
        cases hgen : generate_unique_filename (fs.paths ++ fs.dirs)
            (exportTarget fs output_path).1 (exportTarget fs output_path).2 fuel 0 with
        | none => rw [hgen] at h; exact absurd h (by simp)
        | some out =>
          rw [hgen] at h
          injection h with h1 h2 h3
          subst h1
          exact ⟨⟨pi, rfl⟩, Bool.eq_false_iff.mpr hav, h2.symm,
            by rw [← h2]; exact Bool.eq_false_iff.mpr hss, rfl, h3.symm⟩

/-- C8: exports never overwrite an existing file — the filename search
returns a path that does not exist, taking the first free candidate in
the order plain, (1), (2), …; exporting twice with the same default
filename writes "./hitokoto.txt" and then "./hitokoto(1).txt", two
distinct files; and a directory-target export records the creation of
its destination directory. -/
theorem c8_unique_filenames :
    (∀ (paths : List String) (base fn : String) (fuel counter : Nat) (p : String),
      generate_unique_filename paths base fn fuel counter = some p →
      paths.contains p = false) ∧
    (∀ (paths : List String) (base fn : String) (fuel n : Nat), n < fuel →
      (∀ m, m < n → paths.contains (uniqueCandidate base fn m) = true) →
      paths.contains (uniqueCandidate base fn n) = false →
      generate_unique_filename paths base fn fuel 0 =
        some (uniqueCandidate base fn n)) ∧
    (∀ (st : BundleState) (fs : FS) (sample : List IndexEntry → Nat → List IndexEntry)
      (fuel count : Nat) (stypes : Option (List String)) (minL maxL : Option Int)
      (f1 : String) (ss1 : List Sentence) (fs1 : FS),
      2 ≤ fuel →
      (fs.paths ++ fs.dirs).contains "./hitokoto.txt" = false →
      (fs.paths ++ fs.dirs).contains "./hitokoto(1).txt" = false →
      export_sentences_to_file st fs sample fuel count "hitokoto.txt" stypes minL maxL =
        .wrote f1 ss1 fs1 →
      f1 = "./hitokoto.txt" ∧
      export_sentences_to_file st fs1 sample fuel count "hitokoto.txt" stypes minL maxL =
        .wrote "./hitokoto(1).txt" ss1 ⟨"./hitokoto(1).txt" :: f1 :: fs.paths, fs.dirs⟩ ∧
      f1 ≠ "./hitokoto(1).txt") ∧
    (∀ (st : BundleState) (fs : FS) (sample : List IndexEntry → Nat → List IndexEntry)
      (fuel count : Nat) (output_path : String) (stypes : Option (List String))
      (minL maxL : Option Int) (f : String) (ss : List Sentence) (fs2 : FS),
      export_sentences_to_file st fs sample fuel count output_path stypes minL maxL =
        .wrote f ss fs2 →
      (exportTarget fs output_path).1 ≠ "" → (exportTarget fs output_path).1 ≠ "." →
      fs2.dirs.contains (exportTarget fs output_path).1 = true) := by
  refine ⟨gen_unique_not_exists, ?_, ?_, ?_⟩
  · intro paths base fn fuel n hn hall hfree
    have := gen_unique_least paths base fn fuel 0 n hn
      (fun m hm => by rw [Nat.zero_add]; exact hall m hm)
      (by rw [Nat.zero_add]; exact hfree)
    rwa [Nat.zero_add] at this
  · intro st fs sample fuel count stypes minL maxL f1 ss1 fs1 hfuel h0 h1 hw
    obtain ⟨⟨pi, hpi⟩, hav, hss, hssne, hgen, hfs1⟩ :=
      export_wrote_inv st fs sample fuel count "hitokoto.txt" stypes minL maxL
        f1 ss1 fs1 hw
    rw [exportTarget_default fs] at hgen hfs1
    obtain ⟨fuel1, rfl⟩ : ∃ k, fuel = k + 2 := ⟨fuel - 2, by omega⟩
    have hcand0 : uniqueCandidate "." "hitokoto.txt" 0 = "./hitokoto.txt" := by decide
    have hgen1 : generate_unique_filename (fs.paths ++ fs.dirs) "." "hitokoto.txt"
        (fuel1 + 2) 0 = some "./hitokoto.txt" := by
      unfold generate_unique_filename
      rw [hcand0, if_neg (by rw [h0]; exact Bool.false_ne_true)]
    have hf1 : f1 = "./hitokoto.txt" := by
      have := hgen.symm.trans hgen1
      injection this
    subst hf1
    have hfs1' : fs1 = ⟨"./hitokoto.txt" :: fs.paths, fs.dirs⟩ := by
      rw [hfs1]
      simp
    refine ⟨rfl, ?_, by decide⟩
    have hgen2 : generate_unique_filename (fs1.paths ++ fs1.dirs) "." "hitokoto.txt"
        (fuel1 + 2) 0 = some "./hitokoto(1).txt" := by
      rw [hfs1']
      unfold generate_unique_filename
      rw [hcand0, if_pos (by simp)]
      unfold generate_unique_filename
      rw [show uniqueCandidate "." "hitokoto.txt" (0 + 1) = "./hitokoto(1).txt" from by decide]
      rw [if_neg ?hc]
      case hc =>
        simp only [List.cons_append, List.contains_cons]
        rw [h1]
        simp
    have := export_reaches_write st fs1 sample (fuel1 + 2) count "hitokoto.txt"
      stypes minL maxL pi "./hitokoto(1).txt" hpi hav
      (by rw [← hss]; exact hssne)
      (by rw [exportTarget_default fs1]; exact hgen2)
    rw [exportTarget_default fs1] at this
    rw [this, ← hss, hfs1']
    simp
  · intro st fs sample fuel count output_path stypes minL maxL f ss fs2 hw hne hnd
    obtain ⟨_, _, _, _, _, hfs2⟩ :=
      export_wrote_inv st fs sample fuel count output_path stypes minL maxL f ss fs2 hw
    rw [hfs2]
    simp only [if_pos (And.intro hne hnd)]
    simp

/-- A sentence returned by get_sentence_by_id carries the id it was
looked up with. -/
lemma get_sentence_by_id_id (sid : Option Int) (st : BundleState) (s : Sentence)
    (h : get_sentence_by_id sid st = some s) : s.id = sid := by
  unfold get_sentence_by_id at h
  cases hf : (load_index_file st).find? (fun item => decide (item.id = sid)) with
  | none => rw [hf] at h; exact absurd h (by simp)
  | some target =>
    rw [hf] at h
    dsimp only at h
    cases hfile : st.files (target.type ++ ".json") with
    | none => rw [hfile] at h; exact absurd h (by simp)
    | some cf =>
      rw [hfile] at h
      cases cf with
      | malformed => simp at h
      | unreadable => simp at h
      | sentences l =>
        dsimp only at h
        exact of_decide_eq_true (@List.find?_some _ (fun x => decide (x.id = sid)) s l h)

/-- The resolution loop never returns two sentences with the same id,
and never returns a sentence whose id was already in the used set. -/
lemma resolveSelected_nodup (st : BundleState) :
    ∀ (sel : List IndexEntry) (used : List (Option Int)),
      ((resolveSelected st sel used).map Sentence.id).Nodup ∧
      (∀ s ∈ resolveSelected st sel used, s.id ∉ used) := by
  intro sel
  induction sel with
  | nil =>
    intro used
    exact ⟨by simp [resolveSelected], by simp [resolveSelected]⟩
  | cons item rest ih =>
    intro used
    simp only [resolveSelected]
    by_cases hc : used.contains item.id = true
    · rw [if_pos hc]
      exact ih used
    · rw [if_neg hc]
      cases hres : get_sentence_by_id item.id st with
      | none => exact ih used
      | some s =>
        have hsid : s.id = item.id := get_sentence_by_id_id _ _ _ hres
        have ihu := ih (item.id :: used)
        constructor
        · rw [List.map_cons]
          refine List.nodup_cons.mpr ⟨?_, ihu.1⟩
          intro hmem
          obtain ⟨s2, hs2, hs2id⟩ := List.mem_map.mp hmem
          exact ihu.2 s2 hs2 (by rw [hs2id, hsid]; exact List.mem_cons_self _ _)
        · intro s2 hs2
          rcases List.mem_cons.mp hs2 with rfl | hs2
          · rw [hsid]
            intro hmem
            exact hc (by simpa using hmem)
          · intro hmem
            exact ihu.2 s2 hs2 (List.mem_cons_of_mem _ hmem)

/-- When the selected entries have pairwise distinct ids, all resolve,
and none was used yet, the resolution loop keeps them all. -/
lemma resolveSelected_length (st : BundleState) :
    ∀ (sel : List IndexEntry) (used : List (Option Int)),
      (∀ e ∈ sel, (get_sentence_by_id e.id st).isSome = true) →
      (sel.map IndexEntry.id).Nodup →
      (∀ e ∈ sel, e.id ∉ used) →
      (resolveSelected st sel used).length = sel.length := by
  intro sel
  induction sel with
  | nil => intro used _ _ _; rfl
  | cons item rest ih =>
    intro used hres hnd hused
    simp only [resolveSelected]
    rw [if_neg (fun hc =>
      hused item (List.mem_cons_self _ _) (by simpa using hc))]
    cases hr : get_sentence_by_id item.id st with
    | none =>
      exact absurd (hres item (List.mem_cons_self _ _)) (by rw [hr]; simp)
    | some s =>
      rw [List.length_cons, List.length_cons]
      rw [List.map_cons] at hnd
      have hnotin := (List.nodup_cons.mp hnd).1
      have := ih (item.id :: used)
        (fun e he => hres e (List.mem_cons_of_mem _ he))
        ((List.nodup_cons.mp hnd).2)
        (fun e he hmem => by
          rcases List.mem_cons.mp hmem with heq | hmem2
          · exact hnotin (heq ▸ List.mem_map_of_mem IndexEntry.id he)
          · exact hused e (List.mem_cons_of_mem _ he) hmem2)
      rw [this]

/-- The noContent exit is taken exactly when zero entries resolved;
with metadata and a nonempty candidate set the other failure exits
cannot be taken. -/
lemma export_eq_noContent_iff (st : BundleState) (fs : FS)
    (sample : List IndexEntry → Nat → List IndexEntry) (fuel count : Nat)
    (output_path : String) (stypes : Option (List String)) (minL maxL : Option Int)
    (pi : PackageInfo)
    (hpi : st.packageInfo = some pi)
    (hav : (availableItems stypes minL maxL st).isEmpty = false) :
    (export_sentences_to_file st fs sample fuel count output_path stypes minL maxL =
        .noContent ↔
      resolveSelected st (sample (availableItems stypes minL maxL st)
        (min count (availableItems stypes minL maxL st).length)) [] = []) ∧
    export_sentences_to_file st fs sample fuel count output_path stypes minL maxL ≠
      .noBundle ∧
    export_sentences_to_file st fs sample fuel count output_path stypes minL maxL ≠
      .noMatch := by
  unfold export_sentences_to_file
  rw [hpi]
  simp only [hav, Bool.false_eq_true, if_false]
  by_cases hss : (resolveSelected st (sample (availableItems stypes minL maxL st)
      (min count (availableItems stypes minL maxL st).length)) []).isEmpty = true
  · rw [if_pos hss]
    exact ⟨⟨fun _ => List.isEmpty_iff.mp hss, fun _ => rfl⟩, by simp, by simp⟩
  · rw [if_neg hss]
    cases hgen : generate_unique_filename (fs.paths ++ fs.dirs)
        (exportTarget fs output_path).1 (exportTarget fs output_path).2 fuel 0 with
    | none =>
      exact ⟨⟨fun h => absurd h (by simp),
        fun h => absurd (List.isEmpty_iff.mpr h) hss⟩, by simp, by simp⟩
    | some out =>
      exact ⟨⟨fun h => absurd h (by simp),
        fun h => absurd (List.isEmpty_iff.mpr h) hss⟩, by simp, by simp⟩

/-- C5: no two quotes written by an export share an id; when the
requested count exceeds the filtered candidate set (whose entries have
distinct ids and all resolve), the count is clamped and exactly the
whole candidate set is exported as a success; and with metadata and
candidates present the export fails (noContent) exactly when zero
entries resolved — unresolvable entries are skipped, not fatal. -/
theorem c5_export_no_duplicates (st : BundleState) (fs : FS)
    (sample : List IndexEntry → Nat → List IndexEntry) (fuel count : Nat)
    (output_path : String) (stypes : Option (List String)) (minL maxL : Option Int) :
    (∀ f ss fs2,
      export_sentences_to_file st fs sample fuel count output_path stypes minL maxL =
        .wrote f ss fs2 → (ss.map Sentence.id).Nodup) ∧
    (∀ av, av = availableItems stypes minL maxL st → ∀ pi,
      st.packageInfo = some pi →
      av.length < count →
      (sample av av.length).length = av.length →
      List.Subperm (sample av av.length) av →
      (av.map IndexEntry.id).Nodup →
      (∀ e ∈ av, (get_sentence_by_id e.id st).isSome = true) →
      av ≠ [] →
      generate_unique_filename (fs.paths ++ fs.dirs) (exportTarget fs output_path).1
        (exportTarget fs output_path).2 fuel 0 ≠ none →
      ∃ f fs2,
        export_sentences_to_file st fs sample fuel count output_path stypes minL maxL =
          .wrote f (resolveSelected st (sample av av.length) []) fs2 ∧
        (resolveSelected st (sample av av.length) []).length = av.length) ∧
    (∀ pi, st.packageInfo = some pi →
      availableItems stypes minL maxL st ≠ [] →
      (export_sentences_to_file st fs sample fuel count output_path stypes minL maxL =
          .noContent ↔
        resolveSelected st (sample (availableItems stypes minL maxL st)
          (min count (availableItems stypes minL maxL st).length)) [] = []) ∧
      export_sentences_to_file st fs sample fuel count output_path stypes minL maxL ≠
        .noBundle ∧
      export_sentences_to_file st fs sample fuel count output_path stypes minL maxL ≠
        .noMatch) := by
  refine ⟨?_, ?_, ?_⟩
  · intro f ss fs2 hw
    obtain ⟨_, _, hss, _, _, _⟩ :=
      export_wrote_inv st fs sample fuel count output_path stypes minL maxL f ss fs2 hw
    rw [hss]
    exact (resolveSelected_nodup st _ []).1
  · intro av hav pi hpi hcount hlen hsub hids hres hne hgen
    subst hav
    set av := availableItems stypes minL maxL st with hav
    have hmin : min count av.length = av.length := Nat.min_eq_right (Nat.le_of_lt hcount)
    have hsel_ids : ((sample av av.length).map IndexEntry.id).Nodup := by
      obtain ⟨l, hp, hs⟩ := hsub
      have hsubmap : List.Subperm ((sample av av.length).map IndexEntry.id)
          (av.map IndexEntry.id) := ⟨l.map IndexEntry.id, hp.map _, hs.map _⟩
      obtain ⟨l2, hp2, hs2⟩ := hsubmap
      exact hp2.nodup_iff.mp (hids.sublist hs2)
    have hsel_res : ∀ e ∈ sample av av.length,
        (get_sentence_by_id e.id st).isSome = true :=
      fun e he => hres e (hsub.subset he)
    have hlen2 : (resolveSelected st (sample av av.length) []).length = av.length := by
      rw [resolveSelected_length st (sample av av.length) [] hsel_res hsel_ids
        (by simp), hlen]
    have hssne : (resolveSelected st (sample av av.length) []).isEmpty = false := by
      cases hrs : resolveSelected st (sample av av.length) [] with
      | nil =>
        rw [hrs] at hlen2
        exact absurd (List.eq_nil_of_length_eq_zero hlen2.symm) hne
      | cons a l => rfl
    obtain ⟨out, hout⟩ : ∃ out, generate_unique_filename (fs.paths ++ fs.dirs)
        (exportTarget fs output_path).1 (exportTarget fs output_path).2 fuel 0 =
          some out := by
      cases hg : generate_unique_filename (fs.paths ++ fs.dirs)
          (exportTarget fs output_path).1 (exportTarget fs output_path).2 fuel 0 with
      | none => exact absurd hg hgen
      | some out => exact ⟨out, rfl⟩
    have havne : av.isEmpty = false := by
      cases hv : av with
      | nil => exact absurd hv hne
      | cons a l => rfl
    have hw := export_reaches_write st fs sample fuel count output_path stypes minL maxL
      pi out hpi (by rw [← hav]; exact havne)
      (by rw [← hav, hmin]; exact hssne)
      hout
    rw [← hav, hmin] at hw
    exact ⟨out, _, hw, hlen2⟩
  · intro pi hpi hne
    have havne : (availableItems stypes minL maxL st).isEmpty = false := by
      cases hv : availableItems stypes minL maxL st with
      | nil => exact absurd hv hne
      | cons a l => rfl
    exact export_eq_noContent_iff st fs sample fuel count output_path stypes minL maxL
      pi hpi havne

/-- C5 witness: requesting 5 quotes when only 2 match exports exactly
the 2, and the export does not fail. -/
theorem c5_export_no_duplicates_witness :
    (resolveSelected stC5 (sampleTake (availableItems none none none stC5)
        (availableItems none none none stC5).length) []).length =
      (availableItems none none none stC5).length ∧
    export_sentences_to_file stC5 ⟨[], []⟩ sampleTake 1 5 "hitokoto.txt" none none none ≠
      ExportResult.noContent := by
  have h := c5_export_no_duplicates stC5 ⟨[], []⟩ sampleTake 1 5 "hitokoto.txt"
    none none none
  obtain ⟨f, fs2, _hw, hlen⟩ := h.2.1 (availableItems none none none stC5) rfl ⟨[]⟩ rfl
    (by decide) (by decide) (List.Sublist.subperm (List.take_sublist _ _))
    (by decide) (by decide) (by decide) (by decide)
  refine ⟨hlen, fun hc => ?_⟩
  have := ((h.2.2 ⟨[]⟩ rfl (by decide)).1).mp hc
  exact absurd this (by decide)

/-- C8 witness: the second export into a directory already holding
./hitokoto.txt writes ./hitokoto(1).txt instead — a distinct file. -/
theorem c8_unique_filenames_witness :
    export_sentences_to_file stC8 ⟨["./hitokoto.txt"], []⟩ sampleTake 2 1 "hitokoto.txt"
        none none none =
      .wrote "./hitokoto(1).txt"
        [⟨some 1, some "u1", some "a", "hello", none, none, none⟩]
        ⟨["./hitokoto(1).txt", "./hitokoto.txt"], []⟩ ∧
    ("./hitokoto.txt" : String) ≠ "./hitokoto(1).txt" := by
  have h := c8_unique_filenames.2.2.1 stC8 ⟨[], []⟩ sampleTake 2 1 none none none
    "./hitokoto.txt" [⟨some 1, some "u1", some "a", "hello", none, none, none⟩]
    ⟨["./hitokoto.txt"], []⟩ (by omega) (by decide) (by decide) (by decide)
  exact ⟨h.2.1, fun he => h.2.2 he⟩

/-- C1 counterexample: sentC1 has both id and uuid and is indexed by
rebuildIndex (with type "a" and file "bundle/b.json"), yet both
lookups return None — the code resolves content through
`{type}.json`, which does not exist here, not through the index
entry's file field. -/
theorem c1_lookup_counterexample :
    buildIndexEntries stC1.files = [⟨some 1, some "u1", "a", "bundle/b.json", 1⟩] ∧
    (runGenerateIndex stC1).index =
      some (.entries [⟨some 1, some "u1", "a", "bundle/b.json", 1⟩]) ∧
    get_sentence_by_id (some 1) (runGenerateIndex stC1) = none ∧
    get_sentence_by_uuid "u1" (runGenerateIndex stC1) = none := by
  refine ⟨by decide, by decide, by decide, by decide⟩

/-- C1 (amended): after rebuilding the index, a record r of category
file c with an id, a nonempty uuid, a type that (when present) equals
its category letter, and with id and uuid unique across the indexed
records and across its own file, is returned exactly by both
get_sentence_by_id and get_sentence_by_uuid. -/
theorem c1_lookup_roundtrip (files : String → Option CatFile)
    (pinfo : Option PackageInfo) (idx0 : Option IndexFileData)
    (c : String) (l : List Sentence) (r : Sentence) (i : Int) (u : String)
    (hc : c ∈ sentence_types)
    (hf : files (c ++ ".json") = some (.sentences l))
    (hr : r ∈ l)
    (hid : r.id = some i)
    (huuid : r.uuid = some u)
    (hu : u ≠ "")
    (htype : r.type.getD c = c)
    (hEidx : ∀ e ∈ buildIndexEntries files, (e.id = some i ∨ e.uuid = some u) →
      e = soleEntry c r i u)
    (hFile : ∀ s2 ∈ l, (s2.id = some i ∨ s2.uuid = some u) → s2 = r) :
    get_sentence_by_id (some i) (runGenerateIndex ⟨files, pinfo, idx0⟩) = some r ∧
    get_sentence_by_uuid u (runGenerateIndex ⟨files, pinfo, idx0⟩) = some r := by
  have hmk : mkIndexEntry c r = some (soleEntry c r i u) := by
    simp [mkIndexEntry, uuidTruthy, soleEntry, hid, huuid, isEmpty_false_of_ne hu, htype]
  have hEmem : soleEntry c r i u ∈ buildIndexEntries files :=
    mem_buildIndexEntries hc (by
      unfold categoryEntries
      rw [hf]
      exact List.mem_filterMap.mpr ⟨r, hr, hmk⟩)
  have hne : buildIndexEntries files ≠ [] := List.ne_nil_of_mem hEmem
  have hidx : runGenerateIndex ⟨files, pinfo, idx0⟩ =
      ⟨files, pinfo, some (.entries (buildIndexEntries files))⟩ := by
    unfold runGenerateIndex generate_index_file
    dsimp only
    rw [if_neg (fun hemp => hne (List.isEmpty_iff.mp hemp))]
  rw [hidx]
  have hload : load_index_file ⟨files, pinfo, some (.entries (buildIndexEntries files))⟩ =
      buildIndexEntries files := rfl
  constructor
  · unfold get_sentence_by_id
    rw [hload]
    rw [find_eq_of_unique _ (buildIndexEntries files) (soleEntry c r i u) hEmem
      (by simp [soleEntry])
      (fun b hb hpb => hEidx b hb (Or.inl (of_decide_eq_true hpb)))]
    dsimp only [soleEntry]
    rw [hf]
    dsimp only
    exact find_eq_of_unique _ l r hr (by simp [hid])
      (fun s2 hs2 hps2 => hFile s2 hs2 (Or.inl (of_decide_eq_true hps2)))
  · unfold get_sentence_by_uuid
    rw [hload]
    rw [find_eq_of_unique _ (buildIndexEntries files) (soleEntry c r i u) hEmem
      (by simp [soleEntry])
      (fun b hb hpb => hEidx b hb (Or.inr (of_decide_eq_true hpb)))]
    dsimp only [soleEntry]
    rw [hf]
    dsimp only
    exact find_eq_of_unique _ l r hr (by simp [huuid])
      (fun s2 hs2 hps2 => hFile s2 hs2 (Or.inr (of_decide_eq_true hps2)))

/-- C1 witness: the amended round-trip holds for the concrete
single-record bundle. -/
theorem c1_lookup_roundtrip_witness :
    get_sentence_by_id (some 1) (runGenerateIndex ⟨filesC1w, some ⟨[]⟩, none⟩) =
      some sentC1w ∧
    get_sentence_by_uuid "u1" (runGenerateIndex ⟨filesC1w, some ⟨[]⟩, none⟩) =
      some sentC1w :=
  c1_lookup_roundtrip filesC1w (some ⟨[]⟩) none "a" [sentC1w] sentC1w 1 "u1"
    (by decide) (by decide) (by decide) rfl rfl (by decide) (by decide)
    (by decide) (by decide)

end Hitokoto
